import Mathlib

/-!
Verification of the astra_gui time-dependent pulse core against its
specification.  The shared numeric constants are embedded from
`src/astra_gui/utils/constants.py`.  The pulse module itself
(`astra_gui/time_dependent/pulse.py`) is not among the provided source
files — only its unit tests are — so its data model and operations are
modelled from the specification text, as marked on each definition.
-/

namespace AstraGui

/-- From `src/astra_gui/utils/constants.py`: `AU_TO_EV = 27.211_386_245_981`. -/
noncomputable def AU_TO_EV : ℝ := 27.211386245981

/-- From `src/astra_gui/utils/constants.py`: `EV_TO_AU = 1.0 / AU_TO_EV`. -/
noncomputable def EV_TO_AU : ℝ := 1.0 / AU_TO_EV

/-- Modelled from the spec: the two recognized pulse shapes, Gaussian and
CosineSquared (§3).  The concrete shape identifier strings are fixed by the
unit tests in `src/tests/test_pulse_module.py`. -/
inductive Shape where
  | gaussian : Shape
  | cosineSquared : Shape
deriving DecidableEq

/-- Modelled from the spec: mapping from the user-entered shape identifier
string to a recognized shape; any other string is unrecognized.  The accepted
spellings are the ones the unit tests construct pulses with. -/
def parseShape (s : String) : Option Shape :=
  if s = "Gaussian" then some Shape.gaussian
  else if s = "Cosine Squared" then some Shape.cosineSquared
  else none

/-- Modelled from the spec: a notification surfaced to the user.  The two
validation failures use different notification channels (an "invalid input"
popup for a bad shape, a warning popup for zero-valued required fields). -/
inductive Notification where
  | invalidInput : String → Notification
  | warning : String → Notification
deriving DecidableEq

/-- Modelled from the spec (§3): a constructed Pulse.  `parsedShape` is the
recognized shape (none when the identifier was not recognized), `amplitude`
is the derived vector-potential amplitude (none when validation failed), and
`good_parameters` is the validity flag. -/
structure Pulse where
  shape : String
  parsedShape : Option Shape
  name : String
  time : ℝ
  freq : ℝ
  fwhm : ℝ
  cep : ℝ
  intensity : ℝ
  theta : ℝ
  phi : ℝ
  amplitude : Option ℝ
  good_parameters : Bool
  notifications : List Notification

/-- Modelled from the spec (§4.1): the derived amplitude
`(C / 18.73 / frequency) * sqrt(10 * intensity)` with `C = 137.03599911`. -/
noncomputable def amplitudeOf (freq intensity : ℝ) : ℝ :=
  137.03599911 / 18.73 / freq * Real.sqrt (10 * intensity)

/-- Modelled from the spec (§4.1): the construction-time validation.
Returns the validity flag, the surfaced notifications and the derived
amplitude.  An unrecognized shape surfaces one "invalid input" notification;
a zero-valued `frequency`, `fwhm` or `intensity` surfaces one distinct
"value must be nonzero" notification on the warning channel; otherwise the
pulse is valid and the amplitude is computed. -/
noncomputable def validatePulse (shape : String) (freq fwhm intensity : ℝ) :
    Bool × List Notification × Option ℝ :=
  match parseShape shape with
  | none => (false, [Notification.invalidInput "invalid input"], none)
  | some _ =>
    if freq = 0 ∨ fwhm = 0 ∨ intensity = 0 then
      (false, [Notification.warning "value must be nonzero"], none)
    else
      (true, [], some (amplitudeOf freq intensity))

/-- Modelled from the spec (§4.1): the Pulse construction contract.  The
Pulse object is produced in every case; validation only sets the flag, the
notifications and the derived amplitude. -/
noncomputable def mkPulse (shape name : String) (time freq fwhm cep intensity theta phi : ℝ) :
    Pulse :=
  { shape := shape
    parsedShape := parseShape shape
    name := name
    time := time
    freq := freq
    fwhm := fwhm
    cep := cep
    intensity := intensity
    theta := theta
    phi := phi
    amplitude := (validatePulse shape freq fwhm intensity).2.2
    good_parameters := (validatePulse shape freq fwhm intensity).1
    notifications := (validatePulse shape freq fwhm intensity).2.1 }

/-- Modelled from the spec (§4.1): envelope evaluation.  Gaussian:
`exp(-ln 2 * (freq*(t-time)/(π*fwhm))^2)`; CosineSquared:
`cos(π*(t-time)/(2*fwhm))^2` on `|t-time| ≤ fwhm`, else exactly `0`.
Behaviour on an invalid pulse is unspecified by the spec; the model
returns `0` there. -/
noncomputable def Pulse.eval_envelope (p : Pulse) (t : ℝ) : ℝ :=
  match p.parsedShape with
  | some Shape.gaussian =>
      Real.exp (-Real.log 2 * (p.freq * (t - p.time) / (Real.pi * p.fwhm)) ^ 2)
  | some Shape.cosineSquared =>
      if |t - p.time| ≤ p.fwhm then Real.cos (Real.pi * (t - p.time) / (2 * p.fwhm)) ^ 2
      else 0
  | none => 0

/-- Modelled from the spec (§4.1): full pulse evaluation
`amplitude * eval_envelope(t) * cos(frequency*(t-time) + cep)`. -/
noncomputable def Pulse.eval_pulse (p : Pulse) (t : ℝ) : ℝ :=
  p.amplitude.getD 0 * p.eval_envelope t * Real.cos (p.freq * (t - p.time) + p.cep)

/-- Modelled from the spec (§4.1, §6): the tag letter selecting the shape in
the serialized pulse tag.  Serialization of an invalid pulse is unspecified;
the model uses a placeholder letter there. -/
def shapeLetter : Option Shape → String
  | some Shape.gaussian => "G"
  | some Shape.cosineSquared => "C"
  | none => "?"

/-- Modelled from the spec (§4.1, §6): the compact pulse tag
`(G time freq fwhm cep intensity theta phi)` (or `(C ...)`), space-separated,
fixed field order.  `fmt` renders a number as text (the original renders
Python floats; the spec does not pin the digit format). -/
def Pulse.parameter_string (p : Pulse) (fmt : ℝ → String) : String :=
  "(" ++ shapeLetter p.parsedShape ++ " " ++ fmt p.time ++ " " ++ fmt p.freq ++ " " ++
    fmt p.fwhm ++ " " ++ fmt p.cep ++ " " ++ fmt p.intensity ++ " " ++ fmt p.theta ++
    " " ++ fmt p.phi ++ ")"

/-- Modelled from the spec (§4.1): `pulse_string() = "[name]{<parameter_string>}"`. -/
def Pulse.pulse_string (p : Pulse) (fmt : ℝ → String) : String :=
  "[" ++ p.name ++ "]\x7b" ++ p.parameter_string fmt ++ "\x7d"

/-- Modelled from the spec (§3): a named, ordered train of Pulse values. -/
structure Pulses where
  name : String
  pulses : List Pulse

/-- Modelled from the spec (§4.2): `pulses_string()` concatenates member
names, each followed by a semicolon, inside `[name]{...}`. -/
def Pulses.pulses_string (ps : Pulses) : String :=
  "[" ++ ps.name ++ "]\x7b" ++ String.join (ps.pulses.map (fun p => p.name ++ ";")) ++ "\x7d"

/-- Modelled from the spec (§3): a pump train, a probe-train template and an
ordered sequence of delays. -/
structure PumpProbePulses where
  pump : Pulses
  probe : Pulses
  delays : List ℝ

/-- Modelled from the spec (§4.3 step 1): the shifted copy of a probe pulse —
every parameter unchanged except the center time, moved by the delay;
the name is preserved. -/
def shiftPulse (d : ℝ) (p : Pulse) : Pulse :=
  { p with time := p.time + d }

/-- Modelled from the spec (§4.3 step 2): the per-delay block
`[pump_probe_<delay>]{<pump_train_name>;<tag_1>;<tag_2>;...}` — the pump
train referenced by name, each shifted probe pulse embedded as its full
parameter tag, in template order, each followed by a semicolon. -/
def PumpProbePulses.pump_probe_line (pp : PumpProbePulses) (fmt : ℝ → String) (d : ℝ) :
    String :=
  "[pump_probe_" ++ fmt d ++ "]\x7b" ++ pp.pump.name ++ ";" ++
    String.join ((pp.probe.pulses.map (shiftPulse d)).map
      (fun p => p.parameter_string fmt ++ ";")) ++ "\x7d"

/-- Modelled from the spec (§4.3): the per-delay blocks, one line per delay,
newline-separated, in delay order. -/
def PumpProbePulses.pump_probe_string (pp : PumpProbePulses) (fmt : ℝ → String) : String :=
  String.intercalate "\n" (pp.delays.map (pp.pump_probe_line fmt))

/-- Modelled from the spec (§4.3): the execution directive
`EXECUTE{<pump_train_name>;pump_probe_<delay_1>;...;}` — the pump train name
once, then one token per delay in delay order, each followed by a semicolon. -/
def PumpProbePulses.execute_string (pp : PumpProbePulses) (fmt : ℝ → String) : String :=
  "EXECUTE\x7b" ++ pp.pump.name ++ ";" ++
    String.join (pp.delays.map (fun d => "pump_probe_" ++ fmt d ++ ";")) ++ "\x7d"

/-- Modelled from the spec (§4.1): the sampling grid of `tabulate` — samples
at uniform spacing `dt` starting exactly at `start`, continuing until the
last sample is at or past `stop`. -/
noncomputable def tabulateTimes (start stop dt : ℝ) : List ℝ :=
  (List.range (⌈(stop - start) / dt⌉₊ + 1)).map (fun (i : ℕ) => start + (i : ℝ) * dt)

/-- Modelled from the spec (§4.1): `tabulate(start, stop, dt)` — the
newline-joined, two-column "time value" text table over the sampling grid. -/
noncomputable def Pulse.tabulate (p : Pulse) (fmt : ℝ → String) (start stop dt : ℝ) :
    String :=
  String.intercalate "\n"
    ((tabulateTimes start stop dt).map (fun t => fmt t ++ " " ++ fmt (p.eval_pulse t)))

/-- Modelled from the spec (§4.4): the minimum of a nonempty list of radii,
written with an explicit head so emptiness is settled by the caller. -/
noncomputable def listMin (r : ℝ) (rs : List ℝ) : ℝ :=
  rs.foldl min r

/-- Modelled from the spec (§4.4): `compute_mask_free_time_interval` — checks
each precondition with a distinct validation error, converts the energy to
atomic units via `EV_TO_AU`, and returns
`(min(cap_radii) - mask_radius) / sqrt(2 * energy_au)`. -/
noncomputable def compute_mask_free_time_interval (max_photon_energy_ev : ℝ)
    (cap_radii : List ℝ) (mask_radius : ℝ) : Except String ℝ :=
  if max_photon_energy_ev ≤ 0 then
    Except.error "max photon energy must be positive"
  else
    match cap_radii with
    | [] => Except.error "cap radii must be non-empty"
    | r :: rs =>
      if ∀ x ∈ r :: rs, mask_radius < x then
        Except.ok ((listMin r rs - mask_radius) /
          Real.sqrt (2 * (max_photon_energy_ev * EV_TO_AU)))
      else
        Except.error "every cap radius must exceed the mask radius"

/-- Modelled from the spec (§4.4): `derive_max_photon_energy_ev` — the exact
algebraic inverse: solves the same equation for the energy in atomic units
and converts back to eV via `AU_TO_EV`. -/
noncomputable def derive_max_photon_energy_ev (mask_free_time : ℝ)
    (cap_radii : List ℝ) (mask_radius : ℝ) : Except String ℝ :=
  if mask_free_time ≤ 0 then
    Except.error "mask-free time must be positive"
  else
    match cap_radii with
    | [] => Except.error "cap radii must be non-empty"
    | r :: rs =>
      if ∀ x ∈ r :: rs, mask_radius < x then
        Except.ok (((listMin r rs - mask_radius) / mask_free_time) ^ 2 / 2 * AU_TO_EV)
      else
        Except.error "every cap radius must exceed the mask radius"

/-- The claim-side reading of a semicolon-terminated member-name list:
each member name followed by a semicolon, in order. -/
def nameJoin : List Pulse → String
  | [] => ""
  | p :: rest => p.name ++ ";" ++ nameJoin rest

/-- The claim-side reading of a semicolon-terminated tag list: each pulse's
full parameter tag followed by a semicolon, in order. -/
def tagJoin (fmt : ℝ → String) : List Pulse → String
  | [] => ""
  | p :: rest => p.parameter_string fmt ++ ";" ++ tagJoin fmt rest

/-- The claim-side reading of the execution token list: one
`pump_probe_<delay>` token per delay, in delay order, each followed by a
semicolon. -/
def execTokens (fmt : ℝ → String) : List ℝ → String
  | [] => ""
  | d :: rest => "pump_probe_" ++ fmt d ++ ";" ++ execTokens fmt rest

/-- `String.join` distributes over cons. -/
theorem string_join_cons (s : String) (l : List String) :
    String.join (s :: l) = s ++ String.join l := by
  apply String.ext
  simp

/-- The member-name list built by `String.join` is the claim-side
semicolon-terminated name list. -/
theorem join_map_name (l : List Pulse) :
    String.join (l.map (fun p => p.name ++ ";")) = nameJoin l := by
  induction l with
  | nil => rfl
  | cons p rest ih =>
      rw [List.map_cons, string_join_cons, ih]
      simp [nameJoin, String.append_assoc]

/-- The tag list built by `String.join` is the claim-side
semicolon-terminated tag list. -/
theorem join_map_tag (fmt : ℝ → String) (l : List Pulse) :
    String.join (l.map (fun p => p.parameter_string fmt ++ ";")) = tagJoin fmt l := by
  induction l with
  | nil => rfl
  | cons p rest ih =>
      rw [List.map_cons, string_join_cons, ih]
      simp [tagJoin, String.append_assoc]

/-- The execution token list built by `String.join` is the claim-side
semicolon-terminated token list. -/
theorem join_map_exec (fmt : ℝ → String) (l : List ℝ) :
    String.join (l.map (fun d => "pump_probe_" ++ fmt d ++ ";")) = execTokens fmt l := by
  induction l with
  | nil => rfl
  | cons d rest ih =>
      rw [List.map_cons, string_join_cons, ih]
      simp [execTokens, String.append_assoc]

/-- Validation result when the shape identifier is unrecognized. -/
theorem validatePulse_of_none {s : String} (f w i : ℝ) (h : parseShape s = none) :
    validatePulse s f w i = (false, [Notification.invalidInput "invalid input"], none) := by
  unfold validatePulse
  rw [h]

/-- Validation result when the shape is recognized but a required field is
exactly zero. -/
theorem validatePulse_of_zero {s : String} {sh : Shape} (hs : parseShape s = some sh)
    {f w i : ℝ} (h : f = 0 ∨ w = 0 ∨ i = 0) :
    validatePulse s f w i = (false, [Notification.warning "value must be nonzero"], none) := by
  unfold validatePulse
  rw [hs]
  exact if_pos h

/-- Validation result when the shape is recognized and all required fields
are nonzero. -/
theorem validatePulse_of_nonzero {s : String} {sh : Shape} (hs : parseShape s = some sh)
    {f w i : ℝ} (hf : f ≠ 0) (hw : w ≠ 0) (hi : i ≠ 0) :
    validatePulse s f w i = (true, [], some (amplitudeOf f i)) := by
  unfold validatePulse
  rw [hs]
  exact if_neg (by push_neg; exact ⟨hf, hw, hi⟩)

/-- A valid pulse stores the derived amplitude. -/
theorem validatePulse_amp_of_true {s : String} {f w i : ℝ}
    (h : (validatePulse s f w i).1 = true) :
    (validatePulse s f w i).2.2 = some (amplitudeOf f i) := by
  cases hp : parseShape s with
  | none => rw [validatePulse_of_none f w i hp] at h; simp at h
  | some sh =>
      by_cases hz : f = 0 ∨ w = 0 ∨ i = 0
      · rw [validatePulse_of_zero hp hz] at h; simp at h
      · push_neg at hz
        rw [validatePulse_of_nonzero hp hz.1 hz.2.1 hz.2.2]

/-- C9: for every Pulses train with name n and members p1..pk,
`pulses_string()` equals `"[n]{p1.name;p2.name;...;pk.name;}"`: member names
(not full parameter tags) in order, each followed by a semicolon, with no
separator after the final semicolon. -/
theorem pulses_string_spec (nm : String) (l : List Pulse) :
    Pulses.pulses_string ⟨nm, l⟩ = "[" ++ nm ++ "]\x7b" ++ nameJoin l ++ "\x7d" ∧
    (∀ p1 p2 : Pulse, Pulses.pulses_string ⟨nm, [p1, p2]⟩ =
      "[" ++ nm ++ "]\x7b" ++ p1.name ++ ";" ++ p2.name ++ ";" ++ "\x7d") := by
  constructor
  · rw [Pulses.pulses_string, join_map_name]
  · intro p1 p2
    rw [Pulses.pulses_string, join_map_name]
    apply String.ext
    simp [nameJoin]

/-- C6: for every PumpProbePulses and every delay in its delays sequence,
processed in the given order: each probe-template pulse is copied with all
parameters unchanged except `time + delay` and its name preserved; the
per-delay line is `"[pump_probe_<delay>]{<pump_train_name>;"` followed by
each shifted probe pulse's full parameter tag in template order; and
`execute_string()` is the single line
`"EXECUTE{<pump_train_name>;pump_probe_<d1>;...;}"` with the pump train name
exactly once and one token per delay in delay order, each followed by a
semicolon. -/
theorem pump_probe_spec (pp : PumpProbePulses) (fmt : ℝ → String) :
    (∀ (d : ℝ) (p : Pulse),
      (shiftPulse d p).time = p.time + d ∧
      (shiftPulse d p).name = p.name ∧
      (shiftPulse d p).shape = p.shape ∧
      (shiftPulse d p).parsedShape = p.parsedShape ∧
      (shiftPulse d p).freq = p.freq ∧
      (shiftPulse d p).fwhm = p.fwhm ∧
      (shiftPulse d p).cep = p.cep ∧
      (shiftPulse d p).intensity = p.intensity ∧
      (shiftPulse d p).theta = p.theta ∧
      (shiftPulse d p).phi = p.phi ∧
      (shiftPulse d p).amplitude = p.amplitude ∧
      (shiftPulse d p).good_parameters = p.good_parameters) ∧
    (∀ d : ℝ, pp.pump_probe_line fmt d =
      "[pump_probe_" ++ fmt d ++ "]\x7b" ++ pp.pump.name ++ ";" ++
        tagJoin fmt (pp.probe.pulses.map (shiftPulse d)) ++ "\x7d") ∧
    pp.pump_probe_string fmt =
      String.intercalate "\n" (pp.delays.map (pp.pump_probe_line fmt)) ∧
    pp.execute_string fmt =
      "EXECUTE\x7b" ++ pp.pump.name ++ ";" ++ execTokens fmt pp.delays ++ "\x7d" := by
  refine ⟨?_, ?_, rfl, ?_⟩
  · intro d p
    refine ⟨rfl, rfl, rfl, rfl, rfl, rfl, rfl, rfl, rfl, rfl, rfl, rfl⟩
  · intro d
    rw [PumpProbePulses.pump_probe_line, join_map_tag]
  · rw [PumpProbePulses.execute_string, join_map_exec]

/-- C7: constructing a Pulse with an unrecognized shape, or with any of
frequency, fwhm, intensity equal to exactly zero, still produces a Pulse
object but with good_parameters = false and exactly one notification
surfaced; the shape error and the zero-value error use different
notification channels and messages, and a construction with a recognized
shape and all three fields nonzero yields good_parameters = true. -/
theorem mkPulse_validation (s n : String) (t f w c i th ph : ℝ) :
    (parseShape s = none →
      (mkPulse s n t f w c i th ph).good_parameters = false ∧
      (mkPulse s n t f w c i th ph).notifications =
        [Notification.invalidInput "invalid input"]) ∧
    (∀ sh : Shape, parseShape s = some sh → f = 0 ∨ w = 0 ∨ i = 0 →
      (mkPulse s n t f w c i th ph).good_parameters = false ∧
      (mkPulse s n t f w c i th ph).notifications =
        [Notification.warning "value must be nonzero"]) ∧
    (∀ sh : Shape, parseShape s = some sh → f ≠ 0 → w ≠ 0 → i ≠ 0 →
      (mkPulse s n t f w c i th ph).good_parameters = true ∧
      (mkPulse s n t f w c i th ph).notifications = []) ∧
    (∀ m1 m2 : String, Notification.invalidInput m1 ≠ Notification.warning m2) ∧
    "invalid input" ≠ "value must be nonzero" := by
  refine ⟨?_, ?_, ?_, ?_, by decide⟩
  · intro hno
    have hv := validatePulse_of_none (s := s) f w i hno
    constructor
    · show (validatePulse s f w i).1 = false
      rw [hv]
    · show (validatePulse s f w i).2.1 = _
      rw [hv]
  · intro sh hsh hz
    have hv := validatePulse_of_zero hsh hz
    constructor
    · show (validatePulse s f w i).1 = false
      rw [hv]
    · show (validatePulse s f w i).2.1 = _
      rw [hv]
  · intro sh hsh hf hw hi
    have hv := validatePulse_of_nonzero hsh hf hw hi
    constructor
    · show (validatePulse s f w i).1 = true
      rw [hv]
    · show (validatePulse s f w i).2.1 = _
      rw [hv]
  · intro m1 m2 h
    exact Notification.noConfusion h

/-- C10: the exact shape identifiers the Pulse constructor accepts are the
strings "Gaussian" and "Cosine Squared" (with an embedded space, not the
concatenated spelling "CosineSquared"); a pulse built with "Cosine Squared"
and nonzero frequency/fwhm/intensity has good_parameters = true and
serializes with tag letter C, while every other shape string (e.g.
"Triangle") yields good_parameters = false. -/
theorem shape_identifiers :
    (∀ s : String, (parseShape s).isSome = true ↔ s = "Gaussian" ∨ s = "Cosine Squared") ∧
    (parseShape "CosineSquared").isSome = false ∧
    (parseShape "Triangle").isSome = false ∧
    (∀ (n : String) (t f w c i th ph : ℝ), f ≠ 0 → w ≠ 0 → i ≠ 0 →
      (mkPulse "Cosine Squared" n t f w c i th ph).good_parameters = true ∧
      ∀ fmt : ℝ → String, ∃ rest : String,
        (mkPulse "Cosine Squared" n t f w c i th ph).parameter_string fmt =
          "(C " ++ rest) ∧
    (∀ (s n : String) (t f w c i th ph : ℝ), s ≠ "Gaussian" → s ≠ "Cosine Squared" →
      (mkPulse s n t f w c i th ph).good_parameters = false) := by
  refine ⟨?_, by decide, by decide, ?_, ?_⟩
  · intro s
    unfold parseShape
    split_ifs with h1 h2
    · simp [h1]
    · simp [h2]
    · simp [h1, h2]
  · intro n t f w c i th ph hf hw hi
    have hsh : parseShape "Cosine Squared" = some Shape.cosineSquared := by decide
    have hv := validatePulse_of_nonzero hsh hf hw hi
    constructor
    · show (validatePulse "Cosine Squared" f w i).1 = true
      rw [hv]
    · intro fmt
      refine ⟨fmt t ++ " " ++ fmt f ++ " " ++ fmt w ++ " " ++ fmt c ++ " " ++ fmt i ++
        " " ++ fmt th ++ " " ++ fmt ph ++ ")", ?_⟩
      show "(" ++ shapeLetter (parseShape "Cosine Squared") ++ " " ++ _ ++ " " ++ _ ++
        " " ++ _ ++ " " ++ _ ++ " " ++ _ ++ " " ++ _ ++ " " ++ _ ++ ")" = _
      rw [hsh]
      apply String.ext
      simp [shapeLetter]
      rfl
  · intro s n t f w c i th ph h1 h2
    have hno : parseShape s = none := by
      unfold parseShape
      rw [if_neg h1, if_neg h2]
    have hv := validatePulse_of_none (s := s) f w i hno
    show (validatePulse s f w i).1 = false
    rw [hv]

/-- C1: for every valid Pulse and every time t, eval_pulse(t) equals
amplitude * eval_envelope(t) * cos(frequency*(t-time) + cep), where
amplitude = (137.03599911 / 18.73 / frequency) * sqrt(10 * intensity). -/
theorem eval_pulse_spec (s n : String) (t0 f w c i th ph tt : ℝ)
    (h : (mkPulse s n t0 f w c i th ph).good_parameters = true) :
    (mkPulse s n t0 f w c i th ph).eval_pulse tt =
      137.03599911 / 18.73 / f * Real.sqrt (10 * i) *
        (mkPulse s n t0 f w c i th ph).eval_envelope tt *
        Real.cos (f * (tt - t0) + c) := by
  have hamp : (mkPulse s n t0 f w c i th ph).amplitude = some (amplitudeOf f i) :=
    validatePulse_amp_of_true h
  rw [Pulse.eval_pulse, hamp]
  rfl

/-- Witness for C1 at a concrete valid Gaussian pulse. -/
theorem eval_pulse_spec_witness :
    (mkPulse "Gaussian" "pump" 0 1 4 0 1 0 0).good_parameters = true ∧
    (mkPulse "Gaussian" "pump" 0 1 4 0 1 0 0).eval_pulse 1 =
      137.03599911 / 18.73 / 1 * Real.sqrt (10 * 1) *
        (mkPulse "Gaussian" "pump" 0 1 4 0 1 0 0).eval_envelope 1 *
        Real.cos (1 * (1 - 0) + 0) := by
  have hs : parseShape "Gaussian" = some Shape.gaussian := by decide
  have h : (mkPulse "Gaussian" "pump" 0 1 4 0 1 0 0).good_parameters = true := by
    show (validatePulse "Gaussian" 1 4 1).1 = true
    rw [validatePulse_of_nonzero hs (by norm_num) (by norm_num) (by norm_num)]
  exact ⟨h, eval_pulse_spec "Gaussian" "pump" 0 1 4 0 1 0 0 1 h⟩

/-- C2: for every valid Pulse, eval_envelope matches its shape's analytic
formula: a Gaussian pulse returns exp(-ln 2 * (freq*(t-time)/(π*fwhm))^2)
for every t and is never exactly zero for finite t; a CosineSquared pulse
returns cos(π*(t-time)/(2*fwhm))^2 when |t-time| ≤ fwhm and exactly 0
otherwise, with value 1 at t = time. -/
theorem eval_envelope_spec (p : Pulse) (hfw : 0 < p.fwhm) :
    (p.parsedShape = some Shape.gaussian →
      (∀ t, p.eval_envelope t =
        Real.exp (-Real.log 2 * (p.freq * (t - p.time) / (Real.pi * p.fwhm)) ^ 2)) ∧
      ∀ t, p.eval_envelope t ≠ 0) ∧
    (p.parsedShape = some Shape.cosineSquared →
      (∀ t, |t - p.time| ≤ p.fwhm →
        p.eval_envelope t = Real.cos (Real.pi * (t - p.time) / (2 * p.fwhm)) ^ 2) ∧
      (∀ t, p.fwhm < |t - p.time| → p.eval_envelope t = 0) ∧
      p.eval_envelope p.time = 1) := by
  constructor
  · intro hg
    constructor
    · intro t
      unfold Pulse.eval_envelope
      rw [hg]
    · intro t
      unfold Pulse.eval_envelope
      rw [hg]
      exact Real.exp_ne_zero _
  · intro hc
    refine ⟨?_, ?_, ?_⟩
    · intro t ht
      unfold Pulse.eval_envelope
      rw [hc]
      exact if_pos ht
    · intro t ht
      unfold Pulse.eval_envelope
      rw [hc]
      exact if_neg (not_le.mpr ht)
    · unfold Pulse.eval_envelope
      rw [hc]
      rw [if_pos (by rw [sub_self, abs_zero]; exact hfw.le)]
      rw [sub_self]
      simp

/-- Witness for C2 at a concrete cosine-squared pulse. -/
theorem eval_envelope_spec_witness :
    0 < (mkPulse "Cosine Squared" "probe" 0 1 2 0 1 0 0).fwhm ∧
    ((mkPulse "Cosine Squared" "probe" 0 1 2 0 1 0 0).parsedShape = some Shape.gaussian →
      (∀ t, (mkPulse "Cosine Squared" "probe" 0 1 2 0 1 0 0).eval_envelope t =
        Real.exp (-Real.log 2 *
          ((mkPulse "Cosine Squared" "probe" 0 1 2 0 1 0 0).freq *
            (t - (mkPulse "Cosine Squared" "probe" 0 1 2 0 1 0 0).time) /
            (Real.pi * (mkPulse "Cosine Squared" "probe" 0 1 2 0 1 0 0).fwhm)) ^ 2)) ∧
      ∀ t, (mkPulse "Cosine Squared" "probe" 0 1 2 0 1 0 0).eval_envelope t ≠ 0) ∧
    ((mkPulse "Cosine Squared" "probe" 0 1 2 0 1 0 0).parsedShape =
        some Shape.cosineSquared →
      (∀ t, |t - (mkPulse "Cosine Squared" "probe" 0 1 2 0 1 0 0).time| ≤
          (mkPulse "Cosine Squared" "probe" 0 1 2 0 1 0 0).fwhm →
        (mkPulse "Cosine Squared" "probe" 0 1 2 0 1 0 0).eval_envelope t =
          Real.cos (Real.pi * (t - (mkPulse "Cosine Squared" "probe" 0 1 2 0 1 0 0).time) /
            (2 * (mkPulse "Cosine Squared" "probe" 0 1 2 0 1 0 0).fwhm)) ^ 2) ∧
      (∀ t, (mkPulse "Cosine Squared" "probe" 0 1 2 0 1 0 0).fwhm <
          |t - (mkPulse "Cosine Squared" "probe" 0 1 2 0 1 0 0).time| →
        (mkPulse "Cosine Squared" "probe" 0 1 2 0 1 0 0).eval_envelope t = 0) ∧
      (mkPulse "Cosine Squared" "probe" 0 1 2 0 1 0 0).eval_envelope
        (mkPulse "Cosine Squared" "probe" 0 1 2 0 1 0 0).time = 1) := by
  have hfw : 0 < (mkPulse "Cosine Squared" "probe" 0 1 2 0 1 0 0).fwhm := by
    show (0 : ℝ) < 2
    norm_num
  exact ⟨hfw, eval_envelope_spec (mkPulse "Cosine Squared" "probe" 0 1 2 0 1 0 0) hfw⟩

/-- `listMin` over a cons folds the head into the accumulator. -/
theorem listMin_cons (r x : ℝ) (xs : List ℝ) :
    listMin r (x :: xs) = listMin (min r x) xs := rfl

/-- The fold-computed minimum is a member of the radius list. -/
theorem listMin_mem (r : ℝ) (rs : List ℝ) : listMin r rs ∈ r :: rs := by
  induction rs generalizing r with
  | nil => simp [listMin]
  | cons x xs ih =>
      rw [listMin_cons]
      rcases List.mem_cons.mp (ih (min r x)) with h | h
      · rcases min_choice r x with hm | hm
        · rw [h, hm]
          exact List.mem_cons_self _ _
        · rw [h, hm]
          exact List.mem_cons_of_mem _ (List.mem_cons_self _ _)
      · exact List.mem_cons_of_mem _ (List.mem_cons_of_mem _ h)

/-- The fold-computed minimum is a lower bound of the radius list. -/
theorem listMin_le (r : ℝ) (rs : List ℝ) : ∀ x ∈ r :: rs, listMin r rs ≤ x := by
  induction rs generalizing r with
  | nil =>
      intro x hx
      rw [List.mem_singleton] at hx
      rw [hx]
      exact le_refl _
  | cons y ys ih =>
      intro x hx
      rw [listMin_cons]
      rcases List.mem_cons.mp hx with h | h
      · rw [h]
        exact le_trans (ih (min r y) _ (List.mem_cons_self _ _)) (min_le_left r y)
      · rcases List.mem_cons.mp h with h2 | h2
        · rw [h2]
          exact le_trans (ih (min r y) _ (List.mem_cons_self _ _)) (min_le_right r y)
        · exact ih (min r y) x (List.mem_cons_of_mem _ h2)

/-- A strict lower bound of every radius is below the fold-computed minimum. -/
theorem lt_listMin {mask r : ℝ} {rs : List ℝ} (h : ∀ x ∈ r :: rs, mask < x) :
    mask < listMin r rs :=
  h _ (listMin_mem r rs)

/-- `AU_TO_EV` is positive. -/
theorem AU_TO_EV_pos : (0 : ℝ) < AU_TO_EV := by
  unfold AU_TO_EV
  norm_num

/-- `EV_TO_AU` is positive. -/
theorem EV_TO_AU_pos : (0 : ℝ) < EV_TO_AU := by
  unfold EV_TO_AU AU_TO_EV
  norm_num

/-- The two conversion constants are mutual inverses. -/
theorem EV_AU_mul : EV_TO_AU * AU_TO_EV = 1 := by
  unfold EV_TO_AU AU_TO_EV
  norm_num

/-- Evaluation of the interval formula when every precondition holds. -/
theorem compute_eval_pos {E mask r : ℝ} {rs : List ℝ} (hE : ¬ E ≤ 0)
    (hall : ∀ x ∈ r :: rs, mask < x) :
    compute_mask_free_time_interval E (r :: rs) mask =
      Except.ok ((listMin r rs - mask) / Real.sqrt (2 * (E * EV_TO_AU))) := by
  unfold compute_mask_free_time_interval
  rw [if_neg hE]
  exact if_pos hall

/-- Evaluation of the interval formula on a non-positive energy. -/
theorem compute_eval_neg_energy {E mask : ℝ} (radii : List ℝ) (hE : E ≤ 0) :
    compute_mask_free_time_interval E radii mask =
      Except.error "max photon energy must be positive" := by
  unfold compute_mask_free_time_interval
  rw [if_pos hE]

/-- Evaluation of the interval formula on an empty radius list. -/
theorem compute_eval_empty {E mask : ℝ} (hE : ¬ E ≤ 0) :
    compute_mask_free_time_interval E [] mask =
      Except.error "cap radii must be non-empty" := by
  unfold compute_mask_free_time_interval
  rw [if_neg hE]

/-- Evaluation of the interval formula when some radius does not exceed the
mask radius. -/
theorem compute_eval_bad_radius {E mask r : ℝ} {rs : List ℝ} (hE : ¬ E ≤ 0)
    (hbad : ¬ ∀ x ∈ r :: rs, mask < x) :
    compute_mask_free_time_interval E (r :: rs) mask =
      Except.error "every cap radius must exceed the mask radius" := by
  unfold compute_mask_free_time_interval
  rw [if_neg hE]
  exact if_neg hbad

/-- Evaluation of the inverse formula when every precondition holds. -/
theorem derive_eval_pos {dt mask r : ℝ} {rs : List ℝ} (hdt : ¬ dt ≤ 0)
    (hall : ∀ x ∈ r :: rs, mask < x) :
    derive_max_photon_energy_ev dt (r :: rs) mask =
      Except.ok (((listMin r rs - mask) / dt) ^ 2 / 2 * AU_TO_EV) := by
  unfold derive_max_photon_energy_ev
  rw [if_neg hdt]
  exact if_pos hall

/-- C4: for every input satisfying its preconditions,
compute_mask_free_time_interval(E, cap_radii, mask_radius) returns
(min(cap_radii) - mask_radius) / sqrt(2 * energy_au), where
energy_au = E * EV_TO_AU and EV_TO_AU = 1 / 27.211386245981. -/
theorem compute_mask_free_formula (E mask r : ℝ) (rs : List ℝ)
    (hE : 0 < E) (hall : ∀ x ∈ r :: rs, mask < x) :
    EV_TO_AU = 1 / 27.211386245981 ∧
    ∃ m, m ∈ r :: rs ∧ (∀ x ∈ r :: rs, m ≤ x) ∧
      compute_mask_free_time_interval E (r :: rs) mask =
        Except.ok ((m - mask) / Real.sqrt (2 * (E * EV_TO_AU))) := by
  refine ⟨by unfold EV_TO_AU AU_TO_EV; norm_num, listMin r rs, listMin_mem r rs,
    listMin_le r rs, ?_⟩
  exact compute_eval_pos (not_le.mpr hE) hall

/-- Witness for C4 at the unit test's concrete geometry. -/
theorem compute_mask_free_formula_witness :
    (0 : ℝ) < 20 ∧ (∀ x ∈ (45 : ℝ) :: [60], (40 : ℝ) < x) ∧
    (EV_TO_AU = 1 / 27.211386245981 ∧
    ∃ m, m ∈ (45 : ℝ) :: [60] ∧ (∀ x ∈ (45 : ℝ) :: [60], m ≤ x) ∧
      compute_mask_free_time_interval 20 ((45 : ℝ) :: [60]) 40 =
        Except.ok ((m - 40) / Real.sqrt (2 * (20 * EV_TO_AU)))) := by
  have hall : ∀ x ∈ (45 : ℝ) :: [60], (40 : ℝ) < x := by
    intro x hx
    rcases List.mem_cons.mp hx with h | h
    · rw [h]; norm_num
    rcases List.mem_cons.mp h with h2 | h2
    · rw [h2]; norm_num
    · exact absurd h2 (List.not_mem_nil x)
  exact ⟨by norm_num, hall, compute_mask_free_formula 20 40 45 [60] (by norm_num) hall⟩

/-- C5: compute_mask_free_time_interval raises a typed validation error,
with a distinct error for each condition and no partial result, exactly when
the energy is non-positive, or cap_radii is empty, or some element of
cap_radii is not strictly greater than mask_radius; otherwise it returns
normally. -/
theorem compute_mask_free_errors (E mask : ℝ) (radii : List ℝ) :
    ((∃ msg, compute_mask_free_time_interval E radii mask = Except.error msg) ↔
      E ≤ 0 ∨ radii = [] ∨ ∃ x ∈ radii, x ≤ mask) ∧
    (E ≤ 0 → compute_mask_free_time_interval E radii mask =
      Except.error "max photon energy must be positive") ∧
    (¬ E ≤ 0 → radii = [] → compute_mask_free_time_interval E radii mask =
      Except.error "cap radii must be non-empty") ∧
    (∀ r rs, radii = r :: rs → ¬ E ≤ 0 → (∃ x ∈ radii, x ≤ mask) →
      compute_mask_free_time_interval E radii mask =
        Except.error "every cap radius must exceed the mask radius") ∧
    (∀ r rs, radii = r :: rs → ¬ E ≤ 0 → (∀ x ∈ radii, mask < x) →
      ∃ v, compute_mask_free_time_interval E radii mask = Except.ok v) ∧
    ("max photon energy must be positive" ≠ "cap radii must be non-empty" ∧
      "max photon energy must be positive" ≠
        "every cap radius must exceed the mask radius" ∧
      "cap radii must be non-empty" ≠
        "every cap radius must exceed the mask radius") := by
  refine ⟨?_, ?_, ?_, ?_, ?_, by decide, by decide, by decide⟩
  · constructor
    · rintro ⟨msg, hmsg⟩
      by_contra hcon
      push_neg at hcon
      obtain ⟨hE, hne, hall⟩ := hcon
      cases radii with
      | nil => exact hne rfl
      | cons r rs =>
          rw [compute_eval_pos (not_le.mpr hE) hall] at hmsg
          exact Except.noConfusion hmsg
    · intro h
      rcases h with hE | hnil | ⟨x, hx, hxle⟩
      · exact ⟨_, compute_eval_neg_energy radii hE⟩
      · by_cases hE : E ≤ 0
        · exact ⟨_, compute_eval_neg_energy radii hE⟩
        · rw [hnil]
          exact ⟨_, compute_eval_empty hE⟩
      · by_cases hE : E ≤ 0
        · exact ⟨_, compute_eval_neg_energy radii hE⟩
        · cases radii with
          | nil => exact ⟨_, compute_eval_empty hE⟩
          | cons r rs =>
              refine ⟨_, compute_eval_bad_radius hE ?_⟩
              intro hall
              exact absurd (hall x hx) (not_lt.mpr hxle)
  · intro hE
    exact compute_eval_neg_energy radii hE
  · intro hE hnil
    rw [hnil]
    exact compute_eval_empty hE
  · rintro r rs rfl hE ⟨x, hx, hxle⟩
    refine compute_eval_bad_radius hE ?_
    intro hall
    exact absurd (hall x hx) (not_lt.mpr hxle)
  · rintro r rs rfl hE hall
    exact ⟨_, compute_eval_pos hE hall⟩

/-- C3: for every energy E, cap-radii list and mask radius accepted by
compute_mask_free_time_interval, derive_max_photon_energy_ev reproduces E
exactly, and the composition in the other order reproduces the interval. -/
theorem mask_free_round_trip (E mask r : ℝ) (rs : List ℝ)
    (hE : 0 < E) (hall : ∀ x ∈ r :: rs, mask < x) :
    (∃ dt, compute_mask_free_time_interval E (r :: rs) mask = Except.ok dt ∧
      derive_max_photon_energy_ev dt (r :: rs) mask = Except.ok E) ∧
    (∀ dt : ℝ, 0 < dt →
      ∃ E2, derive_max_photon_energy_ev dt (r :: rs) mask = Except.ok E2 ∧
        compute_mask_free_time_interval E2 (r :: rs) mask = Except.ok dt) := by
  have hm : mask < listMin r rs := lt_listMin hall
  have hmm : 0 < listMin r rs - mask := sub_pos.mpr hm
  have hAUEV : AU_TO_EV * EV_TO_AU = 1 := by
    rw [mul_comm]
    exact EV_AU_mul
  constructor
  · have hsarg : 0 < 2 * (E * EV_TO_AU) :=
      mul_pos two_pos (mul_pos hE EV_TO_AU_pos)
    have hs : 0 < Real.sqrt (2 * (E * EV_TO_AU)) := Real.sqrt_pos.mpr hsarg
    have hdt : 0 < (listMin r rs - mask) / Real.sqrt (2 * (E * EV_TO_AU)) :=
      div_pos hmm hs
    refine ⟨_, compute_eval_pos (not_le.mpr hE) hall, ?_⟩
    rw [derive_eval_pos (not_le.mpr hdt) hall]
    congr 1
    have hdiv : (listMin r rs - mask) /
        ((listMin r rs - mask) / Real.sqrt (2 * (E * EV_TO_AU))) =
        Real.sqrt (2 * (E * EV_TO_AU)) := by
      field_simp
    calc ((listMin r rs - mask) /
          ((listMin r rs - mask) / Real.sqrt (2 * (E * EV_TO_AU)))) ^ 2 / 2 * AU_TO_EV
        = Real.sqrt (2 * (E * EV_TO_AU)) ^ 2 / 2 * AU_TO_EV := by rw [hdiv]
      _ = 2 * (E * EV_TO_AU) / 2 * AU_TO_EV := by rw [Real.sq_sqrt hsarg.le]
      _ = E * (EV_TO_AU * AU_TO_EV) := by ring
      _ = E := by rw [EV_AU_mul, mul_one]
  · intro dt hdt
    have hq : 0 < (listMin r rs - mask) / dt := div_pos hmm hdt
    have hE2 : 0 < ((listMin r rs - mask) / dt) ^ 2 / 2 * AU_TO_EV :=
      mul_pos (div_pos (pow_pos hq 2) two_pos) AU_TO_EV_pos
    refine ⟨_, derive_eval_pos (not_le.mpr hdt) hall, ?_⟩
    rw [compute_eval_pos (not_le.mpr hE2) hall]
    congr 1
    have harg : 2 * (((listMin r rs - mask) / dt) ^ 2 / 2 * AU_TO_EV * EV_TO_AU) =
        ((listMin r rs - mask) / dt) ^ 2 := by
      calc 2 * (((listMin r rs - mask) / dt) ^ 2 / 2 * AU_TO_EV * EV_TO_AU)
          = ((listMin r rs - mask) / dt) ^ 2 * (AU_TO_EV * EV_TO_AU) := by ring
        _ = ((listMin r rs - mask) / dt) ^ 2 := by rw [hAUEV, mul_one]
    rw [harg, Real.sqrt_sq hq.le]
    field_simp

/-- Witness for C3 at the unit test's concrete energy and geometry. -/
theorem mask_free_round_trip_witness :
    (0 : ℝ) < 35 ∧ (∀ x ∈ (50 : ℝ) :: [75], (42 : ℝ) < x) ∧
    ((∃ dt, compute_mask_free_time_interval 35 ((50 : ℝ) :: [75]) 42 = Except.ok dt ∧
      derive_max_photon_energy_ev dt ((50 : ℝ) :: [75]) 42 = Except.ok 35) ∧
    (∀ dt : ℝ, 0 < dt →
      ∃ E2, derive_max_photon_energy_ev dt ((50 : ℝ) :: [75]) 42 = Except.ok E2 ∧
        compute_mask_free_time_interval E2 ((50 : ℝ) :: [75]) 42 = Except.ok dt)) := by
  have hall : ∀ x ∈ (50 : ℝ) :: [75], (42 : ℝ) < x := by
    intro x hx
    rcases List.mem_cons.mp hx with h | h
    · rw [h]; norm_num
    rcases List.mem_cons.mp h with h2 | h2
    · rw [h2]; norm_num
    · exact absurd h2 (List.not_mem_nil x)
  exact ⟨by norm_num, hall, mask_free_round_trip 35 42 50 [75] (by norm_num) hall⟩

/-- C8: for every valid Pulse and every start ≤ stop and dt > 0,
tabulate(start, stop, dt) is a newline-joined text of two-column
"time value" rows at uniform spacing dt, whose first row's time equals
start exactly and whose last row's time is at or past stop and overshoots
stop by less than dt (never undershoots). -/
theorem tabulate_spec (p : Pulse) (fmt : ℝ → String) (start stop dt : ℝ)
    (hss : start ≤ stop) (hdt : 0 < dt) :
    p.tabulate fmt start stop dt = String.intercalate "\n"
      ((tabulateTimes start stop dt).map
        (fun t => fmt t ++ " " ++ fmt (p.eval_pulse t))) ∧
    (tabulateTimes start stop dt).head? = some start ∧
    (∀ (i : ℕ) (a b : ℝ), (tabulateTimes start stop dt).get? i = some a →
      (tabulateTimes start stop dt).get? (i + 1) = some b → b = a + dt) ∧
    (∃ tl, (tabulateTimes start stop dt).getLast? = some tl ∧
      stop ≤ tl ∧ tl < stop + dt) := by
  have hdt0 : dt ≠ 0 := ne_of_gt hdt
  have hq0 : 0 ≤ (stop - start) / dt := div_nonneg (sub_nonneg.mpr hss) hdt.le
  have hget : ∀ i : ℕ, i < ⌈(stop - start) / dt⌉₊ + 1 →
      (tabulateTimes start stop dt).get? i = some (start + i * dt) := by
    intro i hi
    unfold tabulateTimes
    rw [List.get?_map, List.get?_range hi]
    rfl
  have hlen : (tabulateTimes start stop dt).length = ⌈(stop - start) / dt⌉₊ + 1 := by
    unfold tabulateTimes
    rw [List.length_map, List.length_range]
  refine ⟨rfl, ?_, ?_, ?_⟩
  · have h0 := hget 0 (Nat.succ_pos _)
    rw [← List.get?_zero, h0]
    norm_num
  · intro i a b ha hb
    have hib : i + 1 < (tabulateTimes start stop dt).length := by
      by_contra hcon
      rw [List.get?_eq_none.mpr (not_lt.mp hcon)] at hb
      exact Option.noConfusion hb
    rw [hlen] at hib
    have hia : i < ⌈(stop - start) / dt⌉₊ + 1 := Nat.lt_of_succ_lt hib
    rw [hget i hia] at ha
    rw [hget (i + 1) hib] at hb
    have ha2 : a = start + i * dt := (Option.some_injective _ ha).symm
    have hb2 : b = start + (i + 1 : ℕ) * dt := (Option.some_injective _ hb).symm
    rw [ha2, hb2]
    push_cast
    ring
  · refine ⟨start + ⌈(stop - start) / dt⌉₊ * dt, ?_, ?_, ?_⟩
    · have hne : tabulateTimes start stop dt ≠ [] := by
        intro hcon
        have := hlen
        rw [hcon] at this
        exact Nat.noConfusion this
      rw [List.getLast?_eq_get? _]
      rw [hlen]
      have : ⌈(stop - start) / dt⌉₊ + 1 - 1 = ⌈(stop - start) / dt⌉₊ := rfl
      rw [this]
      exact hget _ (Nat.lt_succ_self _)
    · have hceil : (stop - start) / dt ≤ (⌈(stop - start) / dt⌉₊ : ℝ) := Nat.le_ceil _
      have := (div_le_iff hdt).mp hceil
      linarith
    · have hceil : (⌈(stop - start) / dt⌉₊ : ℝ) < (stop - start) / dt + 1 :=
        Nat.ceil_lt_add_one hq0
      have h2 : (⌈(stop - start) / dt⌉₊ : ℝ) * dt < ((stop - start) / dt + 1) * dt :=
        mul_lt_mul_of_pos_right hceil hdt
      have h3 : ((stop - start) / dt + 1) * dt = stop - start + dt := by
        field_simp
      linarith

/-- Witness for C8 at a concrete grid. -/
theorem tabulate_spec_witness :
    (0 : ℝ) ≤ 3 ∧ (0 : ℝ) < 2 ∧
    ((mkPulse "Gaussian" "pump" 0 1 4 0 1 0 0).tabulate (fun _ => "v") 0 3 2 =
      String.intercalate "\n" ((tabulateTimes 0 3 2).map
        (fun t => (fun _ : ℝ => "v") t ++ " " ++
          (fun _ : ℝ => "v") ((mkPulse "Gaussian" "pump" 0 1 4 0 1 0 0).eval_pulse t))) ∧
    (tabulateTimes 0 3 2).head? = some 0 ∧
    (∀ (i : ℕ) (a b : ℝ), (tabulateTimes 0 3 2).get? i = some a →
      (tabulateTimes 0 3 2).get? (i + 1) = some b → b = a + 2) ∧
    (∃ tl, (tabulateTimes 0 3 2).getLast? = some tl ∧ (3 : ℝ) ≤ tl ∧ tl < 3 + 2)) := by
  exact ⟨by norm_num, by norm_num,
    tabulate_spec (mkPulse "Gaussian" "pump" 0 1 4 0 1 0 0) (fun _ => "v") 0 3 2
      (by norm_num) (by norm_num)⟩

end AstraGui
